import Mathlib

/-! nslookup test utilities: polling loop and resolver selection

Shallow embedding of the two programs

* `cmd/thanos-nslookup/main.go`   (namespace `ThanosNslookup`)
* `cmd/golang-nslookup/golang-nslookup.go` (namespace `GolangNslookup`)

Each `main` parses its flags, builds a logger, (thanos-nslookup only) selects a
resolver by name, and then runs `for { lookup; log; sleep }` forever.  The loop is
embedded as a labelled step function on an explicit program state; the outcome
`(values, err)` of each lookup is supplied by the environment.
-/

namespace Nslookup

/-! ## Library values used by both programs -/

/-- Go `error` values as they occur here: an error produced by a lookup (its `Error()`
text is `text`), and the two wrappers `github.com/pkg/errors` builds in `Wrapf`. -/
inductive GoError where
  | leaf (text : String)
  | withMessage (cause : GoError) (msg : String)
  | withStack (inner : GoError)
deriving DecidableEq, Repr

/-- The `Error()` method: `withMessage` prints `msg + ": " + cause.Error()`, `withStack`
forwards to the error it embeds. -/
def GoError.Error : GoError → String
  | .leaf text => text
  | .withMessage cause msg => msg ++ ": " ++ cause.Error
  | .withStack inner => inner.Error

/-- `errors.Wrapf(err, format, args...)` of `github.com/pkg/errors`, applied to the already
formatted message `msg = fmt.Sprintf(format, args...)`: `nil` stays `nil`, otherwise the
error is wrapped with the message and then with a stack. -/
def Wrapf (err : Option GoError) (msg : String) : Option GoError :=
  match err with
  | none => none
  | some e => some (.withStack (.withMessage e msg))

/-- The operands handed to `fmt.Sprintf` by the two programs: a `[]string` and an `error`. -/
inductive Operand where
  | strings (xs : List String)
  | error (e : GoError)
deriving DecidableEq, Repr

/-- The element loop of `fmt`'s slice printing: before every element but the first
(`i > 0`) one space is written to the buffer, then the element itself. -/
def printElems : Nat → List String → String → String
  | _, [], buf => buf
  | i, x :: xs, buf => printElems (i + 1) xs ((if i > 0 then buf ++ " " else buf) ++ x)

/-- What the verb `%v` prints for an operand: a slice is `[`, its elements, `]`; an error
is the text of its `Error()` method. -/
def printValue : Operand → String
  | .strings xs => printElems 0 xs "[" ++ "]"
  | .error e => e.Error

/-- Scan of a format string that uses only the verb `%v` and has one operand: every `%v`
is replaced by the printed operand, every other character is copied. -/
def formatV (arg : List Char) : List Char → List Char
  | '%' :: 'v' :: rest => arg ++ formatV arg rest
  | c :: rest => c :: formatV arg rest
  | [] => []

/-- The call `fmt.Sprintf(format, operand)`. -/
def Sprintf (format : String) (operand : Operand) : String :=
  ⟨formatV (printValue operand).data format.data⟩

/-- Modelled from the spec: package `pkg/logging` is not among the sources; the logging sink
is an external collaborator, so a logger is represented by the three arguments
`logging.NewLogger(logLevel, logFormat, debugName)` builds it from. -/
structure Logger where
  logLevel : String
  logFormat : String
  name : String
deriving DecidableEq, Repr

/-- Modelled from the spec: `logging.NewLogger` of the absent package `pkg/logging`. -/
def NewLogger (logLevel logFormat debugName : String) : Logger :=
  ⟨logLevel, logFormat, debugName⟩

/-- The levels of `github.com/go-kit/log/level`; the two loops log on `level.Error` and
`level.Info`. -/
inductive Level where
  | error
  | warn
  | info
  | debug
deriving DecidableEq, Repr

/-- The value of a key/value pair passed to `Log`: an `error` or a string. -/
inductive LogValue where
  | err (e : Option GoError)
  | str (s : String)
deriving DecidableEq, Repr

/-- Modelled from the spec: the resolver types of the absent package `pkg/discovery/dns`;
`GolangResolverType` is the system-delegating strategy, `MiekgdnsResolverType` the
protocol-native one. -/
inductive ResolverType where
  | GolangResolverType
  | MiekgdnsResolverType
deriving DecidableEq, Repr

/-- Modelled from the spec: a `dns.Resolver` instance of the absent package
`pkg/discovery/dns`, holding the strategy it was built from and its logger. -/
structure Resolver where
  resolverType : ResolverType
  logger : Logger
deriving DecidableEq, Repr

/-- Modelled from the spec: the construction `dns.NewResolver(t.ToResolver(logger), logger)`
of the absent package `pkg/discovery/dns`. -/
def NewResolver (t : ResolverType) (logger : Logger) : Resolver :=
  ⟨t, logger⟩

/-- Modelled from the spec: the record types of the absent package `pkg/discovery/dns`. -/
inductive QType where
  | A
  | SRV
  | SRVNoA
deriving DecidableEq, Repr

/-- A `context.Context` as far as cancellation goes: its deadline, if it has one, and whether
its `Done()` channel can ever be closed. -/
structure Context where
  deadline : Option Int
  cancellable : Bool
deriving DecidableEq, Repr

/-- The context `context.TODO()` of the Go standard library: a non-nil, empty context; an
empty context is never cancelled, has no values and has no deadline. -/
def Context.TODO : Context :=
  ⟨none, false⟩

/-- A context carries a cancellation or timeout signal when it has a deadline or can be
cancelled. -/
def Context.carriesSignal (ctx : Context) : Bool :=
  ctx.deadline.isSome || ctx.cancellable

/-- The parsed command line flags (after `app.Parse()`); `interval` is a `time.Duration`. -/
structure Flags where
  address : String
  interval : Int
  logFormat : String
  logLevel : String
  resolverName : String
deriving DecidableEq, Repr

/-- What one lookup (`resolver.Resolve` or `net.LookupHost`) returned: `(values, err)`. -/
structure Outcome where
  values : List String
  err : Option GoError
deriving DecidableEq, Repr

/-- The calls the programs make on their environment. -/
inductive Event where
  | resolve (r : Resolver) (ctx : Context) (name : String) (qtype : QType)
  | lookupHost (host : String)
  | log (logger : Logger) (lvl : Level) (key : String) (value : LogValue)
  | sleep (d : Int)
deriving DecidableEq, Repr

/-- The record of a `Log` call: level, key and value. -/
def Event.record? : Event → Option (Level × String × LogValue)
  | .log _ lvl key value => some (lvl, key, value)
  | .resolve _ _ _ _ => none
  | .lookupHost _ => none
  | .sleep _ => none

/-- The logger a `Log` call is made on. -/
def Event.logger? : Event → Option Logger
  | .log logger _ _ _ => some logger
  | .resolve _ _ _ _ => none
  | .lookupHost _ => none
  | .sleep _ => none

/-- The context given to a `Resolve` call. -/
def Event.ctx? : Event → Option Context
  | .resolve _ ctx _ _ => some ctx
  | .lookupHost _ => none
  | .log _ _ _ _ => none
  | .sleep _ => none

/-- Whether the event is a lookup (`Resolve` or `net.LookupHost`). -/
def Event.isLookup : Event → Bool
  | .resolve _ _ _ _ => true
  | .lookupHost _ => true
  | .log _ _ _ _ => false
  | .sleep _ => false

/-- The duration of a `time.Sleep` call. -/
def Event.sleep? : Event → Option Int
  | .sleep d => some d
  | .resolve _ _ _ _ => none
  | .lookupHost _ => none
  | .log _ _ _ _ => none

/-- An event with the name of the logger it was made on blanked: what is looked up, what
is logged (level, key, value) and how long is slept stay. -/
def Event.eraseLoggerName : Event → Event
  | .log logger lvl key value => .log { logger with name := "" } lvl key value
  | .resolve r ctx name qtype =>
    .resolve { r with logger := { r.logger with name := "" } } ctx name qtype
  | .lookupHost host => .lookupHost host
  | .sleep d => .sleep d

/-- The statement `if values, err := <lookup>; err != nil { level.Error(logger).Log("err",
errors.Wrapf(err, "lookup failed: %v", err)) } else { level.Info(logger).Log("records",
fmt.Sprintf("%v", values)) }`, which is the same in both programs, once the lookup has
returned `(values, err)`. -/
def logOutcome (logger : Logger) (values : List String) (err : Option GoError) : Event :=
  match err with
  | some e =>
    .log logger .error "err" (.err (Wrapf (some e) (Sprintf "lookup failed: %v" (.error e))))
  | none => .log logger .info "records" (.str (Sprintf "%v" (.strings values)))

/-- A record as it is handed to a logger: level, key and value. -/
@[reducible] def LogRecord : Type :=
  Level × String × LogValue

/-- Modelled from the spec: the level filter of the logger built by the absent package
`pkg/logging`. Both programs declare `--log.level` as the "Log filtering level." with the
options `error`, `warn`, `info` and `debug`: a logger lets through the records whose level
is the configured one or a more severe one. No other value passes the flag's `Enum`; for
such a value the filter lets nothing through here. -/
def Logger.allows (logger : Logger) (lvl : Level) : Bool :=
  match logger.logLevel with
  | "error" => lvl == .error
  | "warn" => lvl == .error || lvl == .warn
  | "info" => lvl == .error || lvl == .warn || lvl == .info
  | "debug" => true
  | _ => false

/-- Modelled from the spec: the records that reach the logging sink during a run. A record
of a `Log` call reaches it when the logger's level filter lets it through. A resolver of
the absent package `pkg/discovery/dns` holds the logger it was built with, and `Resolve`
may log diagnostics through this injected sink: `diags` gives, call by call, the records
the resolver hands to its logger during `Resolve`, and they pass the same filter.
`net.LookupHost` and `time.Sleep` have no logger. -/
def sinkRecords : List Event → List (List LogRecord) → List LogRecord
  | [], _ => []
  | .resolve r _ _ _ :: es, d :: ds =>
    d.filter (fun x => r.logger.allows x.1) ++ sinkRecords es ds
  | .resolve _ _ _ _ :: es, [] => sinkRecords es []
  | .lookupHost _ :: es, ds => sinkRecords es ds
  | .log logger lvl key value :: es, ds =>
    (if logger.allows lvl then [(lvl, key, value)] else []) ++ sinkRecords es ds
  | .sleep _ :: es, ds => sinkRecords es ds

/-- Flags used for the concrete runs below. -/
def sampleFlags : Flags :=
  ⟨"example.test", 1000000000, "logfmt", "info", "miekgdns"⟩

/-- A lookup error used for the concrete runs below. -/
def sampleError : GoError :=
  .leaf "no such host"

end Nslookup

/-! ## thanos-nslookup -/

namespace ThanosNslookup
open Nslookup

/-- The value of `--resolver.name`: `Default("miekgdns")` when the flag is omitted. -/
def resolverNameFlag (arg : Option String) : String :=
  arg.getD "miekgdns"

/-- The `switch *resolverName` of `main`. -/
def selectResolver (resolverName : String) (logger : Logger) : Resolver :=
  match resolverName with
  | "miekgdns" => NewResolver .MiekgdnsResolverType logger
  | _ => NewResolver .GolangResolverType logger

/-- Program points of the `for` loop: before the call of `Resolve`, at the `if` with the
outcome of the call in hand, and before `time.Sleep`. -/
inductive Pc where
  | resolve
  | branch (values : List String) (err : Option GoError)
  | sleep
deriving DecidableEq, Repr

/-- The variables of `main` that are live in the loop. -/
structure State where
  pc : Pc
  logger : Logger
  resolver : Resolver
deriving DecidableEq, Repr

/-- The state in which the loop is entered: the logger is built from the flags and the
resolver is selected, once. -/
def setup (f : Flags) : State :=
  let logger := NewLogger f.logLevel f.logFormat f.resolverName
  { pc := .resolve, logger := logger, resolver := selectResolver f.resolverName logger }

/-- One step of the loop; `o` is what the environment returns if the step is the lookup. -/
def step (f : Flags) (s : State) (o : Outcome) : Event × State :=
  match s.pc with
  | .resolve =>
    (.resolve s.resolver Context.TODO f.address QType.A, { s with pc := .branch o.values o.err })
  | .branch values err => (logOutcome s.logger values err, { s with pc := .sleep })
  | .sleep => (.sleep f.interval, { s with pc := .resolve })

/-- One pass through the loop body: the lookup, the log call, the sleep. -/
def iteration (f : Flags) (s : State) (o : Outcome) : List Event × State :=
  let r1 := step f s o
  let r2 := step f r1.2 o
  let r3 := step f r2.2 o
  ([r1.1, r2.1, r3.1], r3.2)

/-- The loop, observed for as many passes as there are lookup outcomes. -/
def loop (f : Flags) : State → List Outcome → List Event
  | _, [] => []
  | s, o :: os => (iteration f s o).1 ++ loop f (iteration f s o).2 os

/-- The calls `main` makes when its lookups return the given outcomes, one after the other,
up to the end of the pass of the last of them. -/
def main (f : Flags) (os : List Outcome) : List Event :=
  loop f (setup f) os

/-- The step relation of the loop. -/
def Step (f : Flags) (s : State) (e : Event) (s' : State) : Prop :=
  ∃ o, step f s o = (e, s')

/-- The states the program can be in. -/
inductive Reachable (f : Flags) : State → Prop where
  | start : Reachable f (setup f)
  | next (s : State) (e : Event) (s' : State) : Reachable f s → Step f s e s' → Reachable f s'

end ThanosNslookup

/-! ## golang-nslookup -/

namespace GolangNslookup
open Nslookup

/-- The value of `--resolver.name`: `Default("unknown")` when the flag is omitted. -/
def resolverNameFlag (arg : Option String) : String :=
  arg.getD "unknown"

/-- Program points of the `for` loop: before the call of `net.LookupHost`, at the `if` with
the outcome of the call in hand, and before `time.Sleep`. -/
inductive Pc where
  | lookup
  | branch (values : List String) (err : Option GoError)
  | sleep
deriving DecidableEq, Repr

/-- The variables of `main` that are live in the loop. -/
structure State where
  pc : Pc
  logger : Logger
deriving DecidableEq, Repr

/-- The state in which the loop is entered: the logger is built from the flags. -/
def setup (f : Flags) : State :=
  { pc := .lookup, logger := NewLogger f.logLevel f.logFormat f.resolverName }

/-- One step of the loop; `o` is what the environment returns if the step is the lookup. -/
def step (f : Flags) (s : State) (o : Outcome) : Event × State :=
  match s.pc with
  | .lookup => (.lookupHost f.address, { s with pc := .branch o.values o.err })
  | .branch values err => (logOutcome s.logger values err, { s with pc := .sleep })
  | .sleep => (.sleep f.interval, { s with pc := .lookup })

/-- One pass through the loop body: the lookup, the log call, the sleep. -/
def iteration (f : Flags) (s : State) (o : Outcome) : List Event × State :=
  let r1 := step f s o
  let r2 := step f r1.2 o
  let r3 := step f r2.2 o
  ([r1.1, r2.1, r3.1], r3.2)

/-- The loop, observed for as many passes as there are lookup outcomes. -/
def loop (f : Flags) : State → List Outcome → List Event
  | _, [] => []
  | s, o :: os => (iteration f s o).1 ++ loop f (iteration f s o).2 os

/-- The calls `main` makes when its lookups return the given outcomes, one after the other,
up to the end of the pass of the last of them. -/
def main (f : Flags) (os : List Outcome) : List Event :=
  loop f (setup f) os

/-- The step relation of the loop. -/
def Step (f : Flags) (s : State) (e : Event) (s' : State) : Prop :=
  ∃ o, step f s o = (e, s')

/-- The states the program can be in. -/
inductive Reachable (f : Flags) : State → Prop where
  | start : Reachable f (setup f)
  | next (s : State) (e : Event) (s' : State) : Reachable f s → Step f s e s' → Reachable f s'

end GolangNslookup

namespace Nslookup

/-! ## Formatting lemmas -/

theorem formatV_lookup_failed (arg : List Char) :
    formatV arg "lookup failed: %v".data = "lookup failed: ".data ++ arg := by
  simp [formatV]

theorem Sprintf_lookup_failed (e : GoError) :
    Sprintf "lookup failed: %v" (.error e) = "lookup failed: " ++ e.Error := by
  apply String.ext
  rw [String.data_append]
  exact formatV_lookup_failed _

theorem Sprintf_v (operand : Operand) : Sprintf "%v" operand = printValue operand := by
  apply String.ext
  simp [Sprintf, formatV]

theorem printElems_succ (i : Nat) (xs : List String) (buf : String) :
    printElems (i + 1) xs buf = String.intercalate.go buf " " xs := by
  induction xs generalizing i buf with
  | nil => rfl
  | cons x xs ih => simp [printElems, String.intercalate.go, ih]

theorem intercalate_go_append (a b sep : String) (xs : List String) :
    String.intercalate.go (a ++ b) sep xs = a ++ String.intercalate.go b sep xs := by
  induction xs generalizing b with
  | nil => rfl
  | cons x xs ih =>
    simp only [String.intercalate.go, String.append_assoc]
    rw [← String.append_assoc b, ih]

theorem printValue_strings (xs : List String) :
    printValue (.strings xs) = "[" ++ " ".intercalate xs ++ "]" := by
  cases xs with
  | nil => rfl
  | cons x xs =>
    simp only [printValue, printElems, String.intercalate]
    rw [if_neg (by decide), printElems_succ, intercalate_go_append]

end Nslookup

namespace Nslookup

/-! ## The rendering of a slice determines the slice -/

theorem intercalate_go_data (acc : String) (xs : List String) :
    (String.intercalate.go acc " " xs).data =
      acc.data ++ (xs.map (fun x => ' ' :: x.data)).flatten := by
  induction xs generalizing acc with
  | nil => simp [String.intercalate.go]
  | cons x xs ih =>
    simp only [String.intercalate.go, ih, String.data_append, List.map_cons,
      List.flatten_cons, List.append_assoc]
    rfl

theorem split_at_space (a b r r' : List Char) (ha : ' ' ∉ a) (hb : ' ' ∉ b)
    (hr : r = [] ∨ r.head? = some ' ') (hr' : r' = [] ∨ r'.head? = some ' ')
    (h : a ++ r = b ++ r') : a = b ∧ r = r' := by
  induction a generalizing b with
  | nil =>
    cases b with
    | nil => exact ⟨rfl, h⟩
    | cons d b =>
      exfalso
      simp only [List.nil_append, List.cons_append] at h
      rcases hr with hr | hr
      · rw [hr] at h
        exact List.noConfusion h
      · rw [h] at hr
        simp only [List.head?_cons, Option.some.injEq] at hr
        exact hb (hr ▸ List.mem_cons_self _ _)
  | cons c a ih =>
    cases b with
    | nil =>
      exfalso
      simp only [List.nil_append, List.cons_append] at h
      rcases hr' with hr' | hr'
      · rw [hr'] at h
        exact List.noConfusion h
      · rw [← h] at hr'
        simp only [List.head?_cons, Option.some.injEq] at hr'
        exact ha (hr' ▸ List.mem_cons_self _ _)
    | cons d b =>
      simp only [List.cons_append, List.cons.injEq] at h
      obtain ⟨hab, hrest⟩ :=
        ih b (fun hm => ha (List.mem_cons_of_mem _ hm))
          (fun hm => hb (List.mem_cons_of_mem _ hm)) h.2
      exact ⟨by rw [h.1, hab], hrest⟩

theorem spaced_head (xs : List String) :
    (xs.map (fun x => ' ' :: x.data)).flatten = [] ∨
      ((xs.map (fun x => ' ' :: x.data)).flatten).head? = some ' ' := by
  cases xs with
  | nil => exact Or.inl rfl
  | cons x xs => exact Or.inr rfl

theorem spaced_inj (xs ys : List String) (hx : ∀ x ∈ xs, ' ' ∉ x.data)
    (hy : ∀ y ∈ ys, ' ' ∉ y.data)
    (h : (xs.map (fun x => ' ' :: x.data)).flatten =
      (ys.map (fun x => ' ' :: x.data)).flatten) : xs = ys := by
  induction xs generalizing ys with
  | nil =>
    cases ys with
    | nil => rfl
    | cons y ys => exact List.noConfusion h
  | cons x xs ih =>
    cases ys with
    | nil => exact List.noConfusion h
    | cons y ys =>
      simp only [List.map_cons, List.flatten_cons, List.cons_append, List.cons.injEq,
        true_and] at h
      obtain ⟨hxy, hrest⟩ :=
        split_at_space _ _ _ _ (hx x (List.mem_cons_self _ _)) (hy y (List.mem_cons_self _ _))
          (spaced_head xs) (spaced_head ys) h
      rw [String.ext hxy,
        ih ys (fun z hz => hx z (List.mem_cons_of_mem _ hz))
          (fun z hz => hy z (List.mem_cons_of_mem _ hz)) hrest]

theorem printValue_strings_data (xs : List String) :
    (printValue (.strings xs)).data =
      '[' :: ((match xs with
        | [] => []
        | x :: rest => x.data ++ (rest.map (fun y => ' ' :: y.data)).flatten) ++ [']']) := by
  cases xs with
  | nil => rfl
  | cons x xs =>
    simp only [printValue, printElems, String.data_append]
    rw [if_neg (by decide), printElems_succ, intercalate_go_data, String.data_append]
    rfl

theorem printValue_strings_inj (xs ys : List String)
    (hx : ∀ x ∈ xs, x ≠ "" ∧ ' ' ∉ x.data) (hy : ∀ y ∈ ys, y ≠ "" ∧ ' ' ∉ y.data)
    (h : printValue (.strings xs) = printValue (.strings ys)) : xs = ys := by
  have hd := congrArg String.data h
  rw [printValue_strings_data, printValue_strings_data] at hd
  simp only [List.cons.injEq, true_and, List.append_left_inj] at hd
  cases xs with
  | nil =>
    cases ys with
    | nil => rfl
    | cons y ys =>
      exfalso
      simp only at hd
      have hy0 : y.data = [] := (List.append_eq_nil.1 hd.symm).1
      exact (hy y (List.mem_cons_self _ _)).1 (String.ext hy0)
  | cons x xs =>
    cases ys with
    | nil =>
      exfalso
      simp only at hd
      have hx0 : x.data = [] := (List.append_eq_nil.1 hd).1
      exact (hx x (List.mem_cons_self _ _)).1 (String.ext hx0)
    | cons y ys =>
      simp only at hd
      obtain ⟨hxy, hrest⟩ :=
        split_at_space _ _ _ _ (hx x (List.mem_cons_self _ _)).2
          (hy y (List.mem_cons_self _ _)).2 (spaced_head xs) (spaced_head ys) hd
      rw [String.ext hxy,
        spaced_inj xs ys (fun z hz => (hx z (List.mem_cons_of_mem _ hz)).2)
          (fun z hz => (hy z (List.mem_cons_of_mem _ hz)).2) hrest]

end Nslookup

namespace Nslookup

/-! ## The log statement -/

theorem logOutcome_values (logger : Logger) (values : List String) :
    logOutcome logger values none =
      .log logger .info "records" (.str (printValue (.strings values))) := by
  simp only [logOutcome, Sprintf_v]

theorem logOutcome_err (logger : Logger) (values : List String) (e : GoError) :
    logOutcome logger values (some e) =
      .log logger .error "err"
        (.err (some (.withStack (.withMessage e ("lookup failed: " ++ e.Error))))) := by
  simp only [logOutcome, Sprintf_lookup_failed, Wrapf]

theorem logOutcome_logger (logger : Logger) (values : List String) (err : Option GoError) :
    (logOutcome logger values err).logger? = some logger := by
  cases err <;> rfl

theorem logOutcome_isLookup (logger : Logger) (values : List String) (err : Option GoError) :
    (logOutcome logger values err).isLookup = false := by
  cases err <;> rfl

theorem logOutcome_ctx (logger : Logger) (values : List String) (err : Option GoError) :
    (logOutcome logger values err).ctx? = none := by
  cases err <;> rfl

theorem logOutcome_sleep (logger : Logger) (values : List String) (err : Option GoError) :
    (logOutcome logger values err).sleep? = none := by
  cases err <;> rfl

theorem logOutcome_eraseLoggerName (logger : Logger) (values : List String)
    (err : Option GoError) :
    (logOutcome logger values err).eraseLoggerName =
      logOutcome { logger with name := "" } values err := by
  cases err <;> rfl

end Nslookup

namespace ThanosNslookup
open Nslookup

/-! ## The loop of thanos-nslookup -/

theorem thanos_iteration_eq (f : Flags) (s : State) (o : Outcome) (h : s.pc = .resolve) :
    iteration f s o =
      ([.resolve s.resolver Context.TODO f.address QType.A,
        logOutcome s.logger o.values o.err, .sleep f.interval], s) := by
  cases s with
  | mk pc logger resolver =>
    simp only at h
    subst h
    rfl

theorem thanos_loop_cons (f : Flags) (s : State) (o : Outcome) (os : List Outcome)
    (h : s.pc = .resolve) :
    loop f s (o :: os) =
      .resolve s.resolver Context.TODO f.address QType.A ::
        logOutcome s.logger o.values o.err :: .sleep f.interval :: loop f s os := by
  show (iteration f s o).1 ++ loop f (iteration f s o).2 os = _
  rw [thanos_iteration_eq f s o h]
  rfl

theorem thanos_loop_append (f : Flags) (s : State) (os os' : List Outcome) (h : s.pc = .resolve) :
    loop f s (os ++ os') = loop f s os ++ loop f s os' := by
  induction os with
  | nil => rfl
  | cons o os ih =>
    rw [List.cons_append, thanos_loop_cons f s o _ h, thanos_loop_cons f s o _ h, ih]
    rfl

theorem thanos_main_snoc (f : Flags) (os : List Outcome) (o : Outcome) :
    main f (os ++ [o]) =
      main f os ++ [.resolve (setup f).resolver Context.TODO f.address QType.A,
        logOutcome (setup f).logger o.values o.err, .sleep f.interval] := by
  simp only [main]
  rw [thanos_loop_append f (setup f) os [o] rfl, thanos_loop_cons f (setup f) o [] rfl]
  rfl

theorem thanos_step_vars (f : Flags) (s : State) (o : Outcome) :
    (step f s o).2.logger = s.logger ∧ (step f s o).2.resolver = s.resolver := by
  obtain ⟨pc, logger, resolver⟩ := s
  cases pc <;> exact ⟨rfl, rfl⟩

theorem thanos_reachable_vars (f : Flags) (s : State) (h : Reachable f s) :
    s.logger = (setup f).logger ∧ s.resolver = (setup f).resolver := by
  induction h with
  | start => exact ⟨rfl, rfl⟩
  | next s e s' _ hstep ih =>
    obtain ⟨o, ho⟩ := hstep
    have hv := thanos_step_vars f s o
    rw [ho] at hv
    exact ⟨hv.1.trans ih.1, hv.2.trans ih.2⟩

theorem thanos_loop_lookups (f : Flags) (s : State) (os : List Outcome) (h : s.pc = .resolve) :
    (loop f s os).filter Event.isLookup =
      List.replicate os.length (.resolve s.resolver Context.TODO f.address QType.A) := by
  induction os with
  | nil => rfl
  | cons o os ih =>
    rw [thanos_loop_cons f s o os h]
    simp only [List.filter_cons, logOutcome_isLookup]
    simp [Event.isLookup, ih, List.replicate_succ]

theorem thanos_loop_ctxs (f : Flags) (s : State) (os : List Outcome) (h : s.pc = .resolve) :
    (loop f s os).filterMap Event.ctx? = List.replicate os.length Context.TODO := by
  induction os with
  | nil => rfl
  | cons o os ih =>
    rw [thanos_loop_cons f s o os h]
    simp only [List.filterMap_cons, logOutcome_ctx]
    simp [Event.ctx?, ih, List.replicate_succ]

theorem thanos_loop_sleeps (f : Flags) (s : State) (os : List Outcome) (h : s.pc = .resolve) :
    (loop f s os).filterMap Event.sleep? = List.replicate os.length f.interval := by
  induction os with
  | nil => rfl
  | cons o os ih =>
    rw [thanos_loop_cons f s o os h]
    simp only [List.filterMap_cons, logOutcome_sleep]
    simp [Event.sleep?, ih, List.replicate_succ]

theorem thanos_loop_length (f : Flags) (s : State) (os : List Outcome) (h : s.pc = .resolve) :
    (loop f s os).length = 3 * os.length := by
  induction os with
  | nil => rfl
  | cons o os ih =>
    rw [thanos_loop_cons f s o os h]
    simp only [List.length_cons, ih]
    omega

theorem thanos_records_snoc (f : Flags) (os : List Outcome) (o : Outcome) :
    (main f (os ++ [o])).filterMap Event.record? =
      (main f os).filterMap Event.record? ++
        (logOutcome (setup f).logger o.values o.err).record?.toList := by
  rw [thanos_main_snoc, List.filterMap_append]
  obtain ⟨values, err⟩ := o
  cases err <;> simp [logOutcome, Event.record?]

end ThanosNslookup

namespace GolangNslookup
open Nslookup

/-! ## The loop of golang-nslookup -/

theorem golang_iteration_eq (f : Flags) (s : State) (o : Outcome) (h : s.pc = .lookup) :
    iteration f s o =
      ([.lookupHost f.address,
        logOutcome s.logger o.values o.err, .sleep f.interval], s) := by
  cases s with
  | mk pc logger =>
    simp only at h
    subst h
    rfl

theorem golang_loop_cons (f : Flags) (s : State) (o : Outcome) (os : List Outcome)
    (h : s.pc = .lookup) :
    loop f s (o :: os) =
      .lookupHost f.address ::
        logOutcome s.logger o.values o.err :: .sleep f.interval :: loop f s os := by
  show (iteration f s o).1 ++ loop f (iteration f s o).2 os = _
  rw [golang_iteration_eq f s o h]
  rfl

theorem golang_loop_append (f : Flags) (s : State) (os os' : List Outcome) (h : s.pc = .lookup) :
    loop f s (os ++ os') = loop f s os ++ loop f s os' := by
  induction os with
  | nil => rfl
  | cons o os ih =>
    rw [List.cons_append, golang_loop_cons f s o _ h, golang_loop_cons f s o _ h, ih]
    rfl

theorem golang_main_snoc (f : Flags) (os : List Outcome) (o : Outcome) :
    main f (os ++ [o]) =
      main f os ++ [.lookupHost f.address,
        logOutcome (setup f).logger o.values o.err, .sleep f.interval] := by
  simp only [main]
  rw [golang_loop_append f (setup f) os [o] rfl, golang_loop_cons f (setup f) o [] rfl]
  rfl

theorem golang_step_vars (f : Flags) (s : State) (o : Outcome) :
    (step f s o).2.logger = s.logger := by
  obtain ⟨pc, logger⟩ := s
  cases pc <;> rfl

theorem golang_reachable_vars (f : Flags) (s : State) (h : Reachable f s) :
    s.logger = (setup f).logger := by
  induction h with
  | start => rfl
  | next s e s' _ hstep ih =>
    obtain ⟨o, ho⟩ := hstep
    have hv := golang_step_vars f s o
    rw [ho] at hv
    exact hv.trans ih

theorem golang_loop_lookups (f : Flags) (s : State) (os : List Outcome) (h : s.pc = .lookup) :
    (loop f s os).filter Event.isLookup =
      List.replicate os.length (.lookupHost f.address) := by
  induction os with
  | nil => rfl
  | cons o os ih =>
    rw [golang_loop_cons f s o os h]
    simp only [List.filter_cons, logOutcome_isLookup]
    simp [Event.isLookup, ih, List.replicate_succ]

theorem golang_loop_sleeps (f : Flags) (s : State) (os : List Outcome) (h : s.pc = .lookup) :
    (loop f s os).filterMap Event.sleep? = List.replicate os.length f.interval := by
  induction os with
  | nil => rfl
  | cons o os ih =>
    rw [golang_loop_cons f s o os h]
    simp only [List.filterMap_cons, logOutcome_sleep]
    simp [Event.sleep?, ih, List.replicate_succ]

theorem golang_loop_loggers (f : Flags) (s : State) (os : List Outcome) (h : s.pc = .lookup) :
    (loop f s os).filterMap Event.logger? = List.replicate os.length s.logger := by
  induction os with
  | nil => rfl
  | cons o os ih =>
    rw [golang_loop_cons f s o os h]
    simp only [List.filterMap_cons, logOutcome_logger]
    simp [Event.logger?, ih, List.replicate_succ]

theorem golang_loop_length (f : Flags) (s : State) (os : List Outcome) (h : s.pc = .lookup) :
    (loop f s os).length = 3 * os.length := by
  induction os with
  | nil => rfl
  | cons o os ih =>
    rw [golang_loop_cons f s o os h]
    simp only [List.length_cons, ih]
    omega

theorem golang_records_snoc (f : Flags) (os : List Outcome) (o : Outcome) :
    (main f (os ++ [o])).filterMap Event.record? =
      (main f os).filterMap Event.record? ++
        (logOutcome (setup f).logger o.values o.err).record?.toList := by
  rw [golang_main_snoc, List.filterMap_append]
  obtain ⟨values, err⟩ := o
  cases err <;> simp [logOutcome, Event.record?]

theorem golang_loop_flags (f f' : Flags) (s : State) (os : List Outcome) (h : s.pc = .lookup)
    (ha : f.address = f'.address) (hi : f.interval = f'.interval) :
    loop f s os = loop f' s os := by
  induction os with
  | nil => rfl
  | cons o os ih => rw [golang_loop_cons f s o os h, golang_loop_cons f' s o os h, ih, ha, hi]

theorem golang_loop_eraseLoggerName (f : Flags) (s : State) (os : List Outcome)
    (h : s.pc = .lookup) :
    (loop f s os).map Event.eraseLoggerName =
      loop f { s with logger := { s.logger with name := "" } } os := by
  induction os with
  | nil => rfl
  | cons o os ih =>
    have h' : ({ s with logger := { s.logger with name := "" } } : State).pc = .lookup := h
    rw [golang_loop_cons f s o os h, golang_loop_cons f _ o os h']
    simp only [List.map_cons, ih, logOutcome_eraseLoggerName]
    rfl

end GolangNslookup


namespace Nslookup

theorem record_eraseLoggerName (e : Event) : e.eraseLoggerName.record? = e.record? := by
  cases e <;> rfl

theorem records_map_eraseLoggerName (es : List Event) :
    (es.map Event.eraseLoggerName).filterMap Event.record? = es.filterMap Event.record? := by
  induction es with
  | nil => rfl
  | cons e es ih =>
    simp only [List.map_cons, List.filterMap_cons, record_eraseLoggerName, ih]

end Nslookup

namespace ThanosNslookup
open Nslookup

/-! ## Resolver selection -/

theorem selectResolver_miekgdns (logger : Logger) :
    selectResolver "miekgdns" logger = NewResolver .MiekgdnsResolverType logger := by
  rfl

theorem selectResolver_of_ne (name : String) (logger : Logger) (h : name ≠ "miekgdns") :
    selectResolver name logger = NewResolver .GolangResolverType logger := by
  unfold selectResolver
  split
  · exact absurd rfl h
  · rfl

theorem selectResolver_type_iff (name : String) (logger : Logger) :
    (selectResolver name logger).resolverType = .MiekgdnsResolverType ↔ name = "miekgdns" := by
  constructor
  · intro h
    by_contra hne
    rw [selectResolver_of_ne name logger hne] at h
    simp [NewResolver] at h
  · intro h
    rw [h, selectResolver_miekgdns]
    rfl

end ThanosNslookup


namespace Nslookup

/-! ## What reaches the logging sink -/

theorem logOutcome_shape (values : List String) (err : Option GoError) :
    ∃ lvl key v, (∀ logger : Logger, logOutcome logger values err = .log logger lvl key v) ∧
      (lvl = Level.error ↔ err ≠ none) ∧ (key = "err" ↔ err ≠ none) ∧
      (err = none → lvl = Level.info ∧ key = "records") ∧
      (err = none → values = [] → v = LogValue.str "[]") := by
  cases err with
  | none =>
    refine ⟨_, _, _, fun logger => logOutcome_values logger values, ?_, ?_, ?_, ?_⟩
    · simp
    · simp
    · intro _
      exact ⟨rfl, rfl⟩
    · intro _ hv
      rw [hv]
      rfl
  | some e =>
    refine ⟨_, _, _, fun logger => logOutcome_err logger values e, ?_, ?_, ?_, ?_⟩
    · simp
    · simp
    · intro h
      exact absurd h (by simp)
    · intro h
      exact absurd h (by simp)

theorem allows_error (logger : Logger)
    (h : logger.logLevel ∈ ["error", "warn", "info", "debug"]) :
    logger.allows Level.error = true := by
  simp only [List.mem_cons, List.mem_singleton, List.not_mem_nil, or_false] at h
  rcases h with h | h | h | h <;> simp [Logger.allows, h]

theorem allows_info (logger : Logger) :
    logger.allows Level.info = true ↔ logger.logLevel = "info" ∨ logger.logLevel = "debug" := by
  unfold Logger.allows
  split <;> simp_all

end Nslookup

namespace ThanosNslookup
open Nslookup

theorem selectResolver_logger (name : String) (logger : Logger) :
    (selectResolver name logger).logger = logger := by
  unfold selectResolver
  split <;> rfl

theorem thanos_sink_snoc (f : Flags) (s : State) (os : List Outcome)
    (ds : List (List LogRecord)) (o : Outcome) (d : List LogRecord) (lvl : Level)
    (key : String) (v : LogValue) (h : s.pc = .resolve) (hl : ds.length = os.length)
    (hlog : logOutcome s.logger o.values o.err = .log s.logger lvl key v) :
    sinkRecords (loop f s (os ++ [o])) (ds ++ [d]) =
      sinkRecords (loop f s os) ds ++
        (d.filter (fun x => s.resolver.logger.allows x.1) ++
          (if s.logger.allows lvl then [(lvl, key, v)] else [])) := by
  induction os generalizing ds with
  | nil =>
    cases ds with
    | cons d' ds => simp at hl
    | nil =>
      rw [List.nil_append, List.nil_append, thanos_loop_cons f s o [] h, hlog]
      simp [sinkRecords, loop]
  | cons o' os ih =>
    cases ds with
    | nil => simp at hl
    | cons d' ds =>
      obtain ⟨lvl', key', v', hlog', _⟩ := logOutcome_shape o'.values o'.err
      have hl' : ds.length = os.length := by simpa using hl
      rw [List.cons_append, List.cons_append, thanos_loop_cons f s o' _ h,
        thanos_loop_cons f s o' _ h, hlog' s.logger]
      simp only [sinkRecords, ih ds hl', List.append_assoc]

end ThanosNslookup

namespace GolangNslookup
open Nslookup

theorem golang_sink_snoc (f : Flags) (s : State) (os : List Outcome)
    (ds : List (List LogRecord)) (o : Outcome) (lvl : Level) (key : String) (v : LogValue)
    (h : s.pc = .lookup)
    (hlog : logOutcome s.logger o.values o.err = .log s.logger lvl key v) :
    sinkRecords (loop f s (os ++ [o])) ds =
      sinkRecords (loop f s os) ds ++ (if s.logger.allows lvl then [(lvl, key, v)] else []) := by
  induction os with
  | nil =>
    rw [List.nil_append, golang_loop_cons f s o [] h, hlog]
    simp [sinkRecords, loop]
  | cons o' os ih =>
    obtain ⟨lvl', key', v', hlog', _⟩ := logOutcome_shape o'.values o'.err
    rw [List.cons_append, golang_loop_cons f s o' _ h, golang_loop_cons f s o' _ h,
      hlog' s.logger]
    simp only [sinkRecords, ih, List.append_assoc]

end GolangNslookup

/-! ## The claims -/

open Nslookup

/-- C1: for every strategy name the selection of thanos-nslookup yields a resolver (it is a
total mapping and the loop is entered with that resolver), and every name other than
`"miekgdns"`, among them `"bogus"` and the empty string, yields one and the same default,
the resolver of type `GolangResolverType`. -/
theorem c1_selection_total_with_golang_default (f : Flags) (name : String) (logger : Logger) :
    (∃ r, ThanosNslookup.selectResolver name logger = r ∧
      (r.resolverType = .MiekgdnsResolverType ∨ r.resolverType = .GolangResolverType)) ∧
    (ThanosNslookup.setup f).resolver =
      ThanosNslookup.selectResolver f.resolverName
        (NewLogger f.logLevel f.logFormat f.resolverName) ∧
    (name ≠ "miekgdns" →
      ThanosNslookup.selectResolver name logger = NewResolver .GolangResolverType logger) ∧
    ThanosNslookup.selectResolver "bogus" logger = NewResolver .GolangResolverType logger ∧
    ThanosNslookup.selectResolver "" logger = NewResolver .GolangResolverType logger := by
  refine ⟨⟨_, rfl, ?_⟩, rfl, ThanosNslookup.selectResolver_of_ne name logger, rfl, rfl⟩
  by_cases h : name = "miekgdns"
  · exact Or.inl ((ThanosNslookup.selectResolver_type_iff name logger).2 h)
  · rw [ThanosNslookup.selectResolver_of_ne name logger h]
    exact Or.inr rfl

/-- Witness for C1 at the name `"bogus"`. -/
theorem c1_selection_total_with_golang_default_witness :
    "bogus" ≠ "miekgdns" ∧
    ThanosNslookup.selectResolver "bogus" (NewLogger "info" "logfmt" "bogus") =
      NewResolver .GolangResolverType (NewLogger "info" "logfmt" "bogus") :=
  ⟨by decide,
    (c1_selection_total_with_golang_default sampleFlags "bogus"
      (NewLogger "info" "logfmt" "bogus")).2.2.1 (by decide)⟩

/-- C2, as stated, fails: the name `"protocol-native"` is not recognised by the switch, so
the selection returns the system-delegating resolver (`GolangResolverType`), not the
protocol-native one. -/
theorem c2_protocol_native_counterexample :
    ThanosNslookup.selectResolver "protocol-native" (NewLogger "info" "logfmt" "protocol-native") =
      NewResolver .GolangResolverType (NewLogger "info" "logfmt" "protocol-native") ∧
    (ThanosNslookup.selectResolver "protocol-native"
      (NewLogger "info" "logfmt" "protocol-native")).resolverType ≠ .MiekgdnsResolverType := by
  decide

/-- C2, amended: the name that selects the protocol-native resolver (`MiekgdnsResolverType`)
is `"miekgdns"`; the name `"protocol-native"` is not recognised and selects the
system-delegating resolver (`GolangResolverType`). -/
theorem c2_miekgdns_selects_protocol_native (logger : Logger) :
    ThanosNslookup.selectResolver "miekgdns" logger =
      NewResolver .MiekgdnsResolverType logger ∧
    (ThanosNslookup.selectResolver "miekgdns" logger).resolverType = .MiekgdnsResolverType ∧
    ThanosNslookup.selectResolver "protocol-native" logger =
      NewResolver .GolangResolverType logger :=
  ⟨rfl, rfl, rfl⟩

/-- C8: when `--resolver.name` is omitted the flag has the value `"miekgdns"`, which selects
the resolver of type `MiekgdnsResolverType`, whereas every name that is not recognised
selects the resolver of type `GolangResolverType`, so the two differ; the miekgdns resolver
is selected if and only if the name is exactly `"miekgdns"` (a name that differs in case
only, such as `"MiekgDNS"`, does not select it). -/
theorem c8_omitted_flag_differs_from_unrecognised (name : String) (logger : Logger) :
    ThanosNslookup.resolverNameFlag none = "miekgdns" ∧
    (ThanosNslookup.selectResolver (ThanosNslookup.resolverNameFlag none) logger).resolverType =
      .MiekgdnsResolverType ∧
    ((ThanosNslookup.selectResolver name logger).resolverType = .MiekgdnsResolverType ↔
      name = "miekgdns") ∧
    (name ≠ "miekgdns" →
      (ThanosNslookup.selectResolver name logger).resolverType = .GolangResolverType ∧
      ThanosNslookup.selectResolver name logger ≠
        ThanosNslookup.selectResolver (ThanosNslookup.resolverNameFlag none) logger) ∧
    (ThanosNslookup.selectResolver "MiekgDNS" logger).resolverType = .GolangResolverType := by
  refine ⟨rfl, rfl, ThanosNslookup.selectResolver_type_iff name logger, ?_, rfl⟩
  intro h
  rw [ThanosNslookup.selectResolver_of_ne name logger h]
  refine ⟨rfl, ?_⟩
  intro heq
  have := congrArg Resolver.resolverType heq
  simp [NewResolver, ThanosNslookup.resolverNameFlag, ThanosNslookup.selectResolver] at this

/-- Witness for C8 at the unrecognised name `"bogus"`. -/
theorem c8_omitted_flag_differs_from_unrecognised_witness :
    "bogus" ≠ "miekgdns" ∧
    (ThanosNslookup.selectResolver "bogus" (NewLogger "info" "logfmt" "bogus")).resolverType =
      .GolangResolverType ∧
    ThanosNslookup.selectResolver "bogus" (NewLogger "info" "logfmt" "bogus") ≠
      ThanosNslookup.selectResolver (ThanosNslookup.resolverNameFlag none)
        (NewLogger "info" "logfmt" "bogus") :=
  ⟨by decide,
    (c8_omitted_flag_differs_from_unrecognised "bogus"
      (NewLogger "info" "logfmt" "bogus")).2.2.2.1 (by decide)⟩

/-- C3, as stated, fails. With `--log.level error` a pass of golang-nslookup whose lookup
succeeds emits no record at all, since the info record of the loop does not pass the level
filter. And in thanos-nslookup, when the resolver logs an error-level diagnostic through the
logger it was given and returns no values and no error, the pass emits two records, the
first of them at error level although `err` is nil. -/
theorem c3_one_record_counterexample :
    sinkRecords (GolangNslookup.main { sampleFlags with logLevel := "error" }
      [⟨["127.0.0.1"], none⟩]) [] = [] ∧
    sinkRecords (ThanosNslookup.main sampleFlags [⟨[], none⟩])
        [[(Level.error, "msg", LogValue.str "failed to lookup IP addresses")]] =
      [(Level.error, "msg", LogValue.str "failed to lookup IP addresses"),
        (Level.info, "records", LogValue.str "[]")] := by
  decide

/-- C3, amended: in both programs every pass of the loop makes exactly one `Log` call of its
own; its level is error exactly when `err` is non-nil and its key is `"err"` exactly when
`err` is non-nil, otherwise it is an info record with the key `"records"`, and for a
successful lookup with no values its value is `"[]"`. What a pass emits is this record if
the level filter of the logger lets its level through (an error record at every log level,
an info record only at the log levels `info` and `debug`), preceded in thanos-nslookup by
those of the records the resolver logged during `Resolve` that pass the same filter. -/
theorem c3_loop_record_and_level_filter (f : Flags) (os : List Outcome)
    (ds : List (List LogRecord)) (o : Outcome) (d : List LogRecord) :
    ∃ lvl key v,
      (lvl = Level.error ↔ o.err ≠ none) ∧ (key = "err" ↔ o.err ≠ none) ∧
      (o.err = none → lvl = Level.info ∧ key = "records") ∧
      (o.err = none → o.values = [] → v = LogValue.str "[]") ∧
      (ThanosNslookup.main f (os ++ [o])).filterMap Event.record? =
        (ThanosNslookup.main f os).filterMap Event.record? ++ [(lvl, key, v)] ∧
      (GolangNslookup.main f (os ++ [o])).filterMap Event.record? =
        (GolangNslookup.main f os).filterMap Event.record? ++ [(lvl, key, v)] ∧
      (ds.length = os.length →
        sinkRecords (ThanosNslookup.main f (os ++ [o])) (ds ++ [d]) =
          sinkRecords (ThanosNslookup.main f os) ds ++
            (d.filter (fun x => (NewLogger f.logLevel f.logFormat f.resolverName).allows x.1) ++
              (if (NewLogger f.logLevel f.logFormat f.resolverName).allows lvl
                then [(lvl, key, v)] else []))) ∧
      sinkRecords (GolangNslookup.main f (os ++ [o])) ds =
        sinkRecords (GolangNslookup.main f os) ds ++
          (if (NewLogger f.logLevel f.logFormat f.resolverName).allows lvl
            then [(lvl, key, v)] else []) ∧
      (f.logLevel ∈ ["error", "warn", "info", "debug"] →
        (NewLogger f.logLevel f.logFormat f.resolverName).allows Level.error = true) ∧
      ((NewLogger f.logLevel f.logFormat f.resolverName).allows Level.info = true ↔
        f.logLevel = "info" ∨ f.logLevel = "debug") := by
  obtain ⟨lvl, key, v, hlog, herr, hkey, hinfo, hempty⟩ := logOutcome_shape o.values o.err
  refine ⟨lvl, key, v, herr, hkey, hinfo, hempty, ?_, ?_, ?_, ?_,
    allows_error (NewLogger f.logLevel f.logFormat f.resolverName),
    allows_info (NewLogger f.logLevel f.logFormat f.resolverName)⟩
  · rw [ThanosNslookup.thanos_records_snoc, hlog]
    rfl
  · rw [GolangNslookup.golang_records_snoc, hlog]
    rfl
  · intro hl
    have h := ThanosNslookup.thanos_sink_snoc f (ThanosNslookup.setup f) os ds o d lvl key v
      rfl hl (hlog _)
    rw [show (ThanosNslookup.setup f).resolver.logger =
      NewLogger f.logLevel f.logFormat f.resolverName from
      ThanosNslookup.selectResolver_logger _ _] at h
    exact h
  · exact GolangNslookup.golang_sink_snoc f (GolangNslookup.setup f) os ds o lvl key v
      rfl (hlog _)

/-- Witness for C3: at the log level `info`, a lookup of thanos-nslookup that returns no
values and no error, during which the resolver logs one error-level diagnostic, emits that
diagnostic and then the info record `records="[]"` of the loop; a successful lookup of
golang-nslookup emits the one info record of the loop. -/
theorem c3_loop_record_and_level_filter_witness :
    sinkRecords (ThanosNslookup.main sampleFlags [⟨[], none⟩])
        [[(Level.error, "msg", LogValue.str "failed to lookup IP addresses")]] =
      [(Level.error, "msg", LogValue.str "failed to lookup IP addresses"),
        (Level.info, "records", LogValue.str "[]")] ∧
    sinkRecords (GolangNslookup.main sampleFlags [⟨["127.0.0.1"], none⟩]) [] =
      [(Level.info, "records", LogValue.str "[127.0.0.1]")] ∧
    (NewLogger "info" "logfmt" "miekgdns").allows Level.error = true := by
  obtain ⟨l1, k1, v1, _, _, hi1, hv1, _, _, hs1, _, ha1, _⟩ :=
    c3_loop_record_and_level_filter sampleFlags [] [] ⟨[], none⟩
      [(Level.error, "msg", LogValue.str "failed to lookup IP addresses")]
  obtain ⟨l2, k2, v2, _, _, hi2, _, _, hr2, _, hg2, _, _⟩ :=
    c3_loop_record_and_level_filter sampleFlags [] [] ⟨["127.0.0.1"], none⟩ []
  have hs := hs1 rfl
  rw [(hi1 rfl).1, (hi1 rfl).2, hv1 rfl rfl] at hs
  rw [(hi2 rfl).1, (hi2 rfl).2] at hg2 hr2
  have hv2 : v2 = LogValue.str "[127.0.0.1]" := by
    have h : [(Level.info, "records", LogValue.str "[127.0.0.1]")] =
        [(Level.info, "records", v2)] := hr2
    simp only [List.cons.injEq, Prod.mk.injEq, true_and, and_true] at h
    exact h.symm
  rw [hv2] at hg2
  exact ⟨hs, hg2, ha1 (by decide)⟩

/-- C4: in both programs no state reachable from the start is terminal, and from the state
that holds a lookup outcome, whatever the outcome, the next steps are the log call, then
`time.Sleep` of exactly the configured interval, then the next lookup; every observed pass
consists of three calls and sleeps for the configured interval. -/
theorem c4_polling_loop_never_ends (f : Flags) :
    (∀ s, ThanosNslookup.Reachable f s → ∃ e s', ThanosNslookup.Step f s e s') ∧
    (∀ s values err e1 s1 e2 s2 e3 s3, ThanosNslookup.Reachable f s →
      s.pc = .branch values err → ThanosNslookup.Step f s e1 s1 →
      ThanosNslookup.Step f s1 e2 s2 → ThanosNslookup.Step f s2 e3 s3 →
      e1 = logOutcome s.logger values err ∧ e2 = .sleep f.interval ∧
      e3 = .resolve s.resolver Context.TODO f.address QType.A) ∧
    (∀ os, (ThanosNslookup.main f os).filterMap Event.sleep? =
      List.replicate os.length f.interval) ∧
    (∀ os, (ThanosNslookup.main f os).length = 3 * os.length) ∧
    (∀ s, GolangNslookup.Reachable f s → ∃ e s', GolangNslookup.Step f s e s') ∧
    (∀ s values err e1 s1 e2 s2 e3 s3, GolangNslookup.Reachable f s →
      s.pc = .branch values err → GolangNslookup.Step f s e1 s1 →
      GolangNslookup.Step f s1 e2 s2 → GolangNslookup.Step f s2 e3 s3 →
      e1 = logOutcome s.logger values err ∧ e2 = .sleep f.interval ∧
      e3 = .lookupHost f.address) ∧
    (∀ os, (GolangNslookup.main f os).filterMap Event.sleep? =
      List.replicate os.length f.interval) ∧
    (∀ os, (GolangNslookup.main f os).length = 3 * os.length) := by
  refine ⟨?_, ?_, ?_, ?_, ?_, ?_, ?_, ?_⟩
  · intro s _
    exact ⟨_, _, ⟨[], none⟩, rfl⟩
  · intro s values err e1 s1 e2 s2 e3 s3 _ hpc h1 h2 h3
    obtain ⟨pc, logger, resolver⟩ := s
    simp only at hpc
    subst hpc
    obtain ⟨o1, h1⟩ := h1
    obtain ⟨o2, h2⟩ := h2
    obtain ⟨o3, h3⟩ := h3
    simp only [ThanosNslookup.step, Prod.mk.injEq] at h1
    obtain ⟨he1, hs1⟩ := h1
    subst hs1
    simp only [ThanosNslookup.step, Prod.mk.injEq] at h2
    obtain ⟨he2, hs2⟩ := h2
    subst hs2
    simp only [ThanosNslookup.step, Prod.mk.injEq] at h3
    exact ⟨he1.symm, he2.symm, h3.1.symm⟩
  · intro os
    exact ThanosNslookup.thanos_loop_sleeps f _ os rfl
  · intro os
    exact ThanosNslookup.thanos_loop_length f _ os rfl
  · intro s _
    exact ⟨_, _, ⟨[], none⟩, rfl⟩
  · intro s values err e1 s1 e2 s2 e3 s3 _ hpc h1 h2 h3
    obtain ⟨pc, logger⟩ := s
    simp only at hpc
    subst hpc
    obtain ⟨o1, h1⟩ := h1
    obtain ⟨o2, h2⟩ := h2
    obtain ⟨o3, h3⟩ := h3
    simp only [GolangNslookup.step, Prod.mk.injEq] at h1
    obtain ⟨he1, hs1⟩ := h1
    subst hs1
    simp only [GolangNslookup.step, Prod.mk.injEq] at h2
    obtain ⟨he2, hs2⟩ := h2
    subst hs2
    simp only [GolangNslookup.step, Prod.mk.injEq] at h3
    exact ⟨he1.symm, he2.symm, h3.1.symm⟩
  · intro os
    exact GolangNslookup.golang_loop_sleeps f _ os rfl
  · intro os
    exact GolangNslookup.golang_loop_length f _ os rfl

/-- Witness for C4: in both programs the start state can step, and from the state reached
by a lookup that failed the next three steps are the error record, the sleep of the
configured second and the next lookup. -/
theorem c4_polling_loop_never_ends_witness :
    (∃ e s', ThanosNslookup.Step sampleFlags (ThanosNslookup.setup sampleFlags) e s') ∧
    (∃ e s', GolangNslookup.Step sampleFlags (GolangNslookup.setup sampleFlags) e s') ∧
    ThanosNslookup.Reachable sampleFlags
      { ThanosNslookup.setup sampleFlags with pc := .branch [] (some sampleError) } ∧
    (logOutcome (ThanosNslookup.setup sampleFlags).logger [] (some sampleError) =
        logOutcome (NewLogger "info" "logfmt" "miekgdns") [] (some sampleError) ∧
      Event.sleep 1000000000 = .sleep sampleFlags.interval ∧
      Event.resolve (ThanosNslookup.setup sampleFlags).resolver Context.TODO "example.test"
          QType.A =
        .resolve (NewResolver .MiekgdnsResolverType (NewLogger "info" "logfmt" "miekgdns"))
          Context.TODO sampleFlags.address QType.A) ∧
    GolangNslookup.Reachable sampleFlags
      { GolangNslookup.setup sampleFlags with pc := .branch [] (some sampleError) } ∧
    (logOutcome (GolangNslookup.setup sampleFlags).logger [] (some sampleError) =
        logOutcome (NewLogger "info" "logfmt" "miekgdns") [] (some sampleError) ∧
      Event.sleep 1000000000 = .sleep sampleFlags.interval ∧
      Event.lookupHost "example.test" = .lookupHost sampleFlags.address) :=
  have ht : ThanosNslookup.Reachable sampleFlags
      { ThanosNslookup.setup sampleFlags with pc := .branch [] (some sampleError) } :=
    .next _ _ _ .start ⟨⟨[], some sampleError⟩, rfl⟩
  have hg : GolangNslookup.Reachable sampleFlags
      { GolangNslookup.setup sampleFlags with pc := .branch [] (some sampleError) } :=
    .next _ _ _ .start ⟨⟨[], some sampleError⟩, rfl⟩
  ⟨(c4_polling_loop_never_ends sampleFlags).1 _ .start,
    (c4_polling_loop_never_ends sampleFlags).2.2.2.2.1 _ .start,
    ht,
    (c4_polling_loop_never_ends sampleFlags).2.1 _ [] (some sampleError) _
      { ThanosNslookup.setup sampleFlags with pc := .sleep } _
      { ThanosNslookup.setup sampleFlags with pc := .resolve } _
      { ThanosNslookup.setup sampleFlags with pc := .branch [] none }
      ht rfl ⟨⟨[], none⟩, rfl⟩ ⟨⟨[], none⟩, rfl⟩ ⟨⟨[], none⟩, rfl⟩,
    hg,
    (c4_polling_loop_never_ends sampleFlags).2.2.2.2.2.1 _ [] (some sampleError) _
      { GolangNslookup.setup sampleFlags with pc := .sleep } _
      { GolangNslookup.setup sampleFlags with pc := .lookup } _
      { GolangNslookup.setup sampleFlags with pc := .branch [] none }
      hg rfl ⟨⟨[], none⟩, rfl⟩ ⟨⟨[], none⟩, rfl⟩ ⟨⟨[], none⟩, rfl⟩⟩

/-- C5: in both programs the record of a successful lookup has, under the key `"records"`,
the rendering of exactly the returned sequence: `[`, the values in the returned order,
every one of them and duplicates included, joined by single spaces, `]`. For values that
are non-empty and contain no space (such as addresses) the record determines the sequence:
two returned sequences with the same record are the same sequence. -/
theorem c5_records_render_returned_sequence (f : Flags) (os : List Outcome)
    (values values' : List String) :
    (ThanosNslookup.main f (os ++ [⟨values, none⟩])).filterMap Event.record? =
      (ThanosNslookup.main f os).filterMap Event.record? ++
        [(Level.info, "records", LogValue.str ("[" ++ " ".intercalate values ++ "]"))] ∧
    (GolangNslookup.main f (os ++ [⟨values, none⟩])).filterMap Event.record? =
      (GolangNslookup.main f os).filterMap Event.record? ++
        [(Level.info, "records", LogValue.str ("[" ++ " ".intercalate values ++ "]"))] ∧
    (ThanosNslookup.main f [⟨["b", "a", "a"], none⟩]).filterMap Event.record? =
      [(Level.info, "records", LogValue.str "[b a a]")] ∧
    (GolangNslookup.main f [⟨["b", "a", "a"], none⟩]).filterMap Event.record? =
      [(Level.info, "records", LogValue.str "[b a a]")] ∧
    ((∀ x ∈ values, x ≠ "" ∧ ' ' ∉ x.data) → (∀ y ∈ values', y ≠ "" ∧ ' ' ∉ y.data) →
      ((ThanosNslookup.main f [⟨values, none⟩]).filterMap Event.record? =
          (ThanosNslookup.main f [⟨values', none⟩]).filterMap Event.record? →
        values = values') ∧
      ((GolangNslookup.main f [⟨values, none⟩]).filterMap Event.record? =
          (GolangNslookup.main f [⟨values', none⟩]).filterMap Event.record? →
        values = values')) := by
  refine ⟨?_, ?_, rfl, rfl, ?_⟩
  · rw [ThanosNslookup.thanos_records_snoc, logOutcome_values, printValue_strings]
    rfl
  · rw [GolangNslookup.golang_records_snoc, logOutcome_values, printValue_strings]
    rfl
  · intro hx hy
    have ht := fun vs => ThanosNslookup.thanos_records_snoc f [] ⟨vs, none⟩
    have hg := fun vs => GolangNslookup.golang_records_snoc f [] ⟨vs, none⟩
    simp only [List.nil_append, logOutcome_values] at ht hg
    constructor
    · intro h
      rw [ht values, ht values'] at h
      simp only [ThanosNslookup.main, ThanosNslookup.loop, List.filterMap_nil,
        List.nil_append, Event.record?, Option.toList, List.cons.injEq, Prod.mk.injEq,
        LogValue.str.injEq, true_and, and_true] at h
      exact printValue_strings_inj values values' hx hy h
    · intro h
      rw [hg values, hg values'] at h
      simp only [GolangNslookup.main, GolangNslookup.loop, List.filterMap_nil,
        List.nil_append, Event.record?, Option.toList, List.cons.injEq, Prod.mk.injEq,
        LogValue.str.injEq, true_and, and_true] at h
      exact printValue_strings_inj values values' hx hy h

/-- Witness for C5: the same two addresses returned in the other order give another
record, in both programs. -/
theorem c5_records_render_returned_sequence_witness :
    (ThanosNslookup.main sampleFlags
        [⟨["198.51.100.6", "198.51.100.5"], none⟩]).filterMap Event.record? ≠
      (ThanosNslookup.main sampleFlags
        [⟨["198.51.100.5", "198.51.100.6"], none⟩]).filterMap Event.record? ∧
    (GolangNslookup.main sampleFlags
        [⟨["198.51.100.6", "198.51.100.5"], none⟩]).filterMap Event.record? ≠
      (GolangNslookup.main sampleFlags
        [⟨["198.51.100.5", "198.51.100.6"], none⟩]).filterMap Event.record? :=
  have h := (c5_records_render_returned_sequence sampleFlags []
    ["198.51.100.6", "198.51.100.5"] ["198.51.100.5", "198.51.100.6"]).2.2.2.2
    (by decide) (by decide)
  ⟨fun he => absurd (h.1 he) (by decide), fun he => absurd (h.2 he) (by decide)⟩

/-- C6, as stated, fails: in the run of thanos-nslookup with the sample flags and one
lookup, the context given to `Resolve` is `context.TODO()`, which has no deadline and
cannot be cancelled, so not every call is given a context that carries a cancellation or
timeout signal. -/
theorem c6_context_counterexample :
    (ThanosNslookup.main sampleFlags [⟨["198.51.100.5"], none⟩]).filterMap Event.ctx? =
      [Context.TODO] ∧
    Context.TODO.carriesSignal = false ∧
    ¬ ∀ ctx ∈ (ThanosNslookup.main sampleFlags [⟨["198.51.100.5"], none⟩]).filterMap
        Event.ctx?, ctx.carriesSignal = true := by
  decide

/-- C6, amended: every call of `Resolve` made by the loop of thanos-nslookup is given the
empty context `context.TODO()`, which has no deadline and is never cancelled. -/
theorem c6_resolve_gets_empty_context (f : Flags) (os : List Outcome) :
    (ThanosNslookup.main f os).filterMap Event.ctx? =
      List.replicate os.length Context.TODO ∧
    Context.TODO.deadline = none ∧ Context.TODO.cancellable = false ∧
    Context.TODO.carriesSignal = false :=
  ⟨ThanosNslookup.thanos_loop_ctxs f _ os rfl, rfl, rfl, rfl⟩

/-- C7: the loop keeps no state between calls. In every reachable state of thanos-nslookup
the resolver and the logger are the ones set up before the loop (and so is the logger of
golang-nslookup); every lookup of a run is `Resolve` on that resolver with
`context.TODO()`, the configured address and the record type `A`, and every lookup of
golang-nslookup is `net.LookupHost` of the configured address; so the n-th lookup is the
same whatever the outcomes of the lookups were. -/
theorem c7_lookup_arguments_never_change (f : Flags) :
    (∀ s, ThanosNslookup.Reachable f s →
      s.resolver = ThanosNslookup.selectResolver f.resolverName
        (NewLogger f.logLevel f.logFormat f.resolverName) ∧
      s.logger = NewLogger f.logLevel f.logFormat f.resolverName) ∧
    (∀ s, GolangNslookup.Reachable f s →
      s.logger = NewLogger f.logLevel f.logFormat f.resolverName) ∧
    (∀ os, (ThanosNslookup.main f os).filter Event.isLookup =
      List.replicate os.length
        (.resolve (ThanosNslookup.selectResolver f.resolverName
            (NewLogger f.logLevel f.logFormat f.resolverName))
          Context.TODO f.address QType.A)) ∧
    (∀ os, (GolangNslookup.main f os).filter Event.isLookup =
      List.replicate os.length (.lookupHost f.address)) ∧
    (∀ os os' n, n < os.length → n < os'.length →
      ((ThanosNslookup.main f os).filter Event.isLookup)[n]? =
        ((ThanosNslookup.main f os').filter Event.isLookup)[n]? ∧
      ((GolangNslookup.main f os).filter Event.isLookup)[n]? =
        ((GolangNslookup.main f os').filter Event.isLookup)[n]?) := by
  have ht : ∀ os, (ThanosNslookup.main f os).filter Event.isLookup =
      List.replicate os.length
        (.resolve (ThanosNslookup.selectResolver f.resolverName
            (NewLogger f.logLevel f.logFormat f.resolverName))
          Context.TODO f.address QType.A) :=
    fun os => ThanosNslookup.thanos_loop_lookups f (ThanosNslookup.setup f) os rfl
  have hg : ∀ os, (GolangNslookup.main f os).filter Event.isLookup =
      List.replicate os.length (.lookupHost f.address) :=
    fun os => GolangNslookup.golang_loop_lookups f (GolangNslookup.setup f) os rfl
  refine ⟨?_, GolangNslookup.golang_reachable_vars f, ht, hg, ?_⟩
  · intro s hs
    exact ⟨(ThanosNslookup.thanos_reachable_vars f s hs).2,
      (ThanosNslookup.thanos_reachable_vars f s hs).1⟩
  · intro os os' n hn hn'
    rw [ht os, ht os', hg os, hg os']
    simp only [List.getElem?_replicate, hn, hn', if_true, and_self]

/-- Witness for C7: the second lookup of thanos-nslookup is the same after a failed first
lookup as after a successful one, and so is the second lookup of golang-nslookup. -/
theorem c7_lookup_arguments_never_change_witness :
    ((ThanosNslookup.main sampleFlags
        [⟨[], some sampleError⟩, ⟨[], none⟩]).filter Event.isLookup)[1]? =
      ((ThanosNslookup.main sampleFlags
        [⟨["198.51.100.5"], none⟩, ⟨[], none⟩, ⟨[], none⟩]).filter Event.isLookup)[1]? ∧
    ((GolangNslookup.main sampleFlags
        [⟨[], some sampleError⟩, ⟨[], none⟩]).filter Event.isLookup)[1]? =
      ((GolangNslookup.main sampleFlags
        [⟨["198.51.100.5"], none⟩, ⟨[], none⟩, ⟨[], none⟩]).filter Event.isLookup)[1]? :=
  (c7_lookup_arguments_never_change sampleFlags).2.2.2.2
    [⟨[], some sampleError⟩, ⟨[], none⟩] [⟨["198.51.100.5"], none⟩, ⟨[], none⟩, ⟨[], none⟩] 1
    (by decide) (by decide)

/-- C9: in golang-nslookup the value of `--resolver.name` does not influence the lookups or
what is logged: for any two values, with everything else the same, the runs agree on every
call once the name of the logger is blanked, every lookup is `net.LookupHost` of the
address, and the log records (level, key, value) are the same; the flag only names the
logger the records are logged on. -/
theorem c9_resolver_name_only_names_logger (f : Flags) (n1 n2 : String)
    (os : List Outcome) :
    (GolangNslookup.main { f with resolverName := n1 } os).map Event.eraseLoggerName =
      (GolangNslookup.main { f with resolverName := n2 } os).map Event.eraseLoggerName ∧
    (GolangNslookup.main { f with resolverName := n1 } os).filter Event.isLookup =
      List.replicate os.length (.lookupHost f.address) ∧
    (GolangNslookup.main { f with resolverName := n1 } os).filterMap Event.record? =
      (GolangNslookup.main { f with resolverName := n2 } os).filterMap Event.record? ∧
    (GolangNslookup.main { f with resolverName := n1 } os).filterMap Event.sleep? =
      (GolangNslookup.main { f with resolverName := n2 } os).filterMap Event.sleep? ∧
    (GolangNslookup.main { f with resolverName := n1 } os).filterMap Event.logger? =
      List.replicate os.length (NewLogger f.logLevel f.logFormat n1) := by
  have herase :
      (GolangNslookup.main { f with resolverName := n1 } os).map Event.eraseLoggerName =
        (GolangNslookup.main { f with resolverName := n2 } os).map Event.eraseLoggerName := by
    simp only [GolangNslookup.main]
    rw [GolangNslookup.golang_loop_eraseLoggerName _ _ os rfl,
      GolangNslookup.golang_loop_eraseLoggerName _ _ os rfl]
    exact GolangNslookup.golang_loop_flags _ _ _ os rfl rfl rfl
  refine ⟨herase, GolangNslookup.golang_loop_lookups _ _ os rfl, ?_, ?_,
    GolangNslookup.golang_loop_loggers _ _ os rfl⟩
  · rw [← records_map_eraseLoggerName, herase, records_map_eraseLoggerName]
  · simp only [GolangNslookup.main]
    rw [GolangNslookup.golang_loop_sleeps _ _ os rfl, GolangNslookup.golang_loop_sleeps _ _ os rfl]

/-- C10: in both programs the record of a failed lookup with error `e` has, under the key
`"err"`, an error whose message is `"lookup failed: "`, the message of `e`, `": "`, and the
message of `e` once more. -/
theorem c10_error_message_twice (f : Flags) (os : List Outcome) (values : List String)
    (e : GoError) :
    ∃ w : GoError,
      w.Error = "lookup failed: " ++ e.Error ++ ": " ++ e.Error ∧
      (ThanosNslookup.main f (os ++ [⟨values, some e⟩])).filterMap Event.record? =
        (ThanosNslookup.main f os).filterMap Event.record? ++
          [(Level.error, "err", LogValue.err (some w))] ∧
      (GolangNslookup.main f (os ++ [⟨values, some e⟩])).filterMap Event.record? =
        (GolangNslookup.main f os).filterMap Event.record? ++
          [(Level.error, "err", LogValue.err (some w))] := by
  refine ⟨.withStack (.withMessage e ("lookup failed: " ++ e.Error)), rfl, ?_, ?_⟩
  · rw [ThanosNslookup.thanos_records_snoc, logOutcome_err]
    rfl
  · rw [GolangNslookup.golang_records_snoc, logOutcome_err]
    rfl
